import Mathlib

/-!
Verification of the monitor-fingerprint state matcher (`auto-win.py`) and the
window-to-profile matcher (`adjwin.py`) of the linux-auto-win repository.

The Python sources are shallowly embedded: each Python function that the
claims touch is translated into an executable Lean definition of the same
name (up to Lean naming rules).  Python exceptions are modelled with
`Except PyErr`; Python `None` with `Option`.  String scanning primitives
(`str.split`, `str.strip`, `in`, the serial-number regex) are modelled
character-list by character-list, following CPython semantics for the
ASCII inputs this program handles.
-/

/-- Errors a Python run can raise in the modelled fragment. -/
inductive PyErr where
  | indexError
  | valueError
  | attributeError
  | keyError
deriving DecidableEq, Repr

/-- ASCII whitespace, as recognised by `str.split` / `str.strip` / regex
whitespace for the ASCII inputs involved. -/
def isWS (c : Char) : Bool :=
  c == ' ' || c == '\t' || c == '\n' || c == '\r' ||
  c == Char.ofNat 11 || c == Char.ofNat 12

/-- Single-quote character (kept out of literals). -/
def squote : Char := Char.ofNat 39

/-- Double-quote character (kept out of literals). -/
def dquote : Char := Char.ofNat 34

/-- Boolean list-prefix test (Python `str.startswith`, on char lists). -/
def isPrefixB : List Char → List Char → Bool
  | [], _ => true
  | _ :: _, [] => false
  | a :: as, b :: bs => a == b && isPrefixB as bs

/-- Boolean substring containment: Python `needle in hay`. -/
def isSubstrB (needle : List Char) : List Char → Bool
  | [] => isPrefixB needle []
  | c :: rest => isPrefixB needle (c :: rest) || isSubstrB needle rest

/-- Python `needle in hay` on strings. -/
def strIn (needle hay : String) : Bool :=
  isSubstrB needle.toList hay.toList

/-- Python `str.strip()` on char lists. -/
def pyStrip (s : List Char) : List Char :=
  ((s.dropWhile isWS).reverse.dropWhile isWS).reverse

/-- Python `str.split(maxsplit=n)` on char lists: at most `n` splits on
whitespace runs, leading whitespace of every piece consumed, the remainder
after the last split kept verbatim. -/
def pySplitMax : Nat → List Char → List (List Char)
  | 0, s =>
    match s.dropWhile isWS with
    | [] => []
    | c :: cs => [c :: cs]
  | m + 1, s =>
    match s.dropWhile isWS with
    | [] => []
    | c :: cs =>
      (c :: cs).takeWhile (fun d => !isWS d) ::
        pySplitMax m ((c :: cs).dropWhile (fun d => !isWS d))

/-- Number of whitespace-separated fields of a char list (the length of
Python `s.split()`).  The boolean argument records whether we are at the
start of the string or just after whitespace. -/
def countFields : Bool → List Char → Nat
  | _, [] => 0
  | afterWS, c :: cs =>
    if isWS c then countFields true cs
    else (if afterWS then 1 else 0) + countFields false cs

/-- The number of whitespace-separated fields of a line. -/
def fieldCount (s : List Char) : Nat := countFields true s

/-- Python unbounded `str.split()` on char lists. -/
def pySplit : List Char → List (List Char) :=
  fun s => pySplitMax s.length s

/-- All-decimal-digits test (body of Python `int(str)` after sign). -/
def allDigits (cs : List Char) : Bool :=
  !cs.isEmpty && cs.all (fun c => c.isDigit)

/-- Digit-list to natural value. -/
def digitsToNat (cs : List Char) : Nat :=
  cs.foldl (fun a c => a * 10 + (c.toNat - 48)) 0

/-- Python `int(str)`: strip whitespace, optional sign, decimal digits;
`none` models the `ValueError` raise. -/
def pyInt (s : List Char) : Option Int :=
  match pyStrip s with
  | [] => none
  | c :: cs =>
    if c == '-' then
      if allDigits cs then some (-(digitsToNat cs : Int)) else none
    else if c == '+' then
      if allDigits cs then some ((digitsToNat cs : Int)) else none
    else
      if allDigits (c :: cs) then some ((digitsToNat (c :: cs) : Int)) else none

/-- Python newline split, as in the source call to split on the newline
character (keeps empty pieces). -/
def splitOnNL : List Char → List (List Char)
  | [] => [[]]
  | c :: cs =>
    if c == '\n' then [] :: splitOnNL cs
    else
      match splitOnNL cs with
      | t :: ts => (c :: t) :: ts
      | [] => [[c]]

/-- Lower-case a char list (Python `str.lower()` for ASCII). -/
def lowerL (s : List Char) : List Char := s.map Char.toLower

/-! ## auto-win.py: data model -/

/-- The `Monitor` dataclass of `auto-win.py`. -/
structure Monitor where
  manufacturer : String
  model : String
  serial : String
  built_in : Bool
deriving DecidableEq, Repr

/-- A `{manufacturer, model, serial}` dict: what `Monitor.as_dict` returns
and what the configured monitor lists contain. -/
structure MonDict where
  manufacturer : String
  model : String
  serial : String
deriving DecidableEq, Repr

/-- `Monitor.as_dict` (drops the built-in bool). -/
def Monitor.as_dict (m : Monitor) : MonDict :=
  ⟨m.manufacturer, m.model, m.serial⟩

/-- The built-in entry of `conf[MON_MAP]`: identity of the built-in panel
plus the state name (`map`) used when it is the only monitor. -/
structure BuiltIn where
  manufacturer : String
  model : String
  map : String
deriving DecidableEq, Repr

/-- The monitor-map part of the JSON configuration: the distinguished
built-in entry plus the remaining named entries of `conf[MON_MAP]`, in
their JSON (insertion) order.  JSON object keys are unique, so no entry
of `entries` is named `"built in"` in a well-formed config; the classifier
below nevertheless skips such a name, exactly as the source loop does. -/
structure Conf where
  builtIn : BuiltIn
  entries : List (String × List MonDict)
deriving DecidableEq, Repr

/-! ## auto-win.py: monitor identity extractor (`get_mon_from_edid`) -/

/-- Case-insensitively consume the (pre-lowercased) token `p` from the
front of `s`; the regex-literal parts of the serial pattern. -/
def dropTokenCI : List Char → List Char → Option (List Char)
  | [], s => some s
  | _ :: _, [] => none
  | p :: ps, c :: cs => if c.toLower == p then dropTokenCI ps cs else none

/-- Consume `\s+` (one or more whitespace chars). -/
def dropWS1 : List Char → Option (List Char)
  | [] => none
  | c :: cs => if isWS c then some (cs.dropWhile isWS) else none

/-- A char ending the serial capture group: whitespace or a quote. -/
def isSerialStop (c : Char) : Bool := isWS c || c == squote || c == dquote

/-- Match the case-insensitive serial regex of the source (the word
serial, whitespace, the word number with a colon, whitespace, an optional
quote, then a captured non-empty run of non-quote non-whitespace chars)
anchored at the start of `s`, returning the captured group. -/
def matchSerialHere (s : List Char) : Option (List Char) :=
  match dropTokenCI "serial".toList s with
  | none => none
  | some s1 =>
    match dropWS1 s1 with
    | none => none
    | some s2 =>
      match dropTokenCI "number:".toList s2 with
      | none => none
      | some s3 =>
        match dropWS1 s3 with
        | none => none
        | some s4 =>
          let s5 := match s4 with
                    | c :: cs => if c == squote || c == dquote then cs else c :: cs
                    | [] => []
          let cap := s5.takeWhile (fun c => !isSerialStop c)
          if cap.isEmpty then none else some cap

/-- `serial_reg.search(line)`: leftmost match of the serial pattern. -/
def searchSerial : List Char → Option (List Char)
  | [] => none
  | c :: cs =>
    match matchSerialHere (c :: cs) with
    | some g => some g
    | none => searchSerial cs

/-- The manufacturer-line test: the lowered line contains the
manufacturer keyword with its colon. -/
def isMfrLine (l : List Char) : Bool :=
  isSubstrB "manufacturer:".toList (lowerL l)

/-- The model-line test: the lowered line contains the model keyword
with its colon. -/
def isModelLine (l : List Char) : Bool :=
  isSubstrB "model:".toList (lowerL l)

/-- `line.split()[1]`; raises `IndexError` when the line has fewer than
two fields. -/
def tok1 (l : List Char) : Except PyErr String :=
  match (pySplit l)[1]? with
  | some t => .ok (String.mk t)
  | none => .error .indexError

/-- The line loop of `get_mon_from_edid`, carrying the accumulated
`mfctr`, `model` and `serial` strings.  Falling off the end of the lines
returns `none` (Python falls off the function body, returning `None`). -/
def edidScan (bi : BuiltIn) :
    List (List Char) → String → String → String → Except PyErr (Option Monitor)
  | [], _, _, _ => .ok none
  | line :: rest, mfctr, model, serial =>
    if isMfrLine line then
      match tok1 line with
      | .error e => .error e
      | .ok t => edidScan bi rest t model serial
    else if isModelLine line then
      match tok1 line with
      | .error e => .error e
      | .ok t => edidScan bi rest mfctr t serial
    else
      match searchSerial line with
      | some g => edidScan bi rest mfctr model (String.mk g)
      | none =>
        if serial = "" then
          if mfctr = bi.manufacturer ∧ model = bi.model then
            .ok (some ⟨mfctr, model, serial, true⟩)
          else
            edidScan bi rest mfctr model serial
        else
          .ok (some ⟨mfctr, model, serial, false⟩)

/-- `get_mon_from_edid(edid_info, built_in)`: split the descriptor on
newlines and scan with empty accumulators. -/
def get_mon_from_edid (edid_info : String) (bi : BuiltIn) :
    Except PyErr (Option Monitor) :=
  edidScan bi (splitOnNL edid_info.toList) "" "" ""

/-- `get_conn_monitors`, abstracted over I/O: `infos` are the non-empty
EDID descriptor texts successfully read from `/sys/class/drm` (missing
`edid` files and empty EDIDs are already skipped by the source before
this point).  The source appends `get_mon_from_edid(info, bi)` for every
such descriptor — including when that call returns `None`. -/
def get_conn_monitors (infos : List String) (bi : BuiltIn) :
    Except PyErr (List (Option Monitor)) :=
  infos.mapM (fun info => get_mon_from_edid info bi)

/-! ## auto-win.py: monitor set classifier -/

/-- `is_mon_match(mons, mlist)`: length fast-fail, then every
`m.as_dict()` must occur in the configured list (`d not in mlist`). -/
def is_mon_match (mons : List Monitor) (mlist : List MonDict) : Bool :=
  if mons.length ≠ mlist.length then false
  else (mons.map Monitor.as_dict).all (fun d => decide (d ∈ mlist))

/-- Attribute access on a possibly-`None` monitor (`m.built_in` raises
`AttributeError` on `None`). -/
def deref : Option Monitor → Except PyErr Monitor
  | some m => .ok m
  | none => .error .attributeError

/-- The `for name, mlist in conf[MON_MAP].items()` loop of
`get_cur_state_name`: skip the built-in key, return the first name
whose list matches. -/
def findStateMatch (mons : List Monitor) :
    List (String × List MonDict) → Option String
  | [] => none
  | (name, mlist) :: rest =>
    if name = "built in" then findStateMatch mons rest
    else if is_mon_match mons mlist then some name
    else findStateMatch mons rest

/-- The non-short-circuit part of `get_cur_state_name`: dereference every
element (the list comprehension touches `m.built_in` on each), filter out
the built-in monitor, and scan the configured entries. -/
def classifyExternal (mons : List (Option Monitor)) (conf : Conf) :
    Except PyErr (Option String) :=
  match mons.mapM deref with
  | .error e => .error e
  | .ok ms => .ok (findStateMatch (ms.filter (fun m => !m.built_in)) conf.entries)

/-- `get_cur_state_name(mons, conf)`.  The list may contain `None`
(see `get_conn_monitors`); touching such an element raises
`AttributeError`, which this embedding surfaces as `Except.error`. -/
def get_cur_state_name (mons : List (Option Monitor)) (conf : Conf) :
    Except PyErr (Option String) :=
  match mons with
  | [om] =>
    match deref om with
    | .error e => .error e
    | .ok m =>
      if m.built_in then .ok (some conf.builtIn.map)
      else classifyExternal mons conf
  | _ => classifyExternal mons conf

/-! ## auto-win.py: state transition control (`main`, `adjust_windows`) -/

/-- The `UNKNOWN_STATE` sentinel. -/
def UNKNOWN_STATE : String := "unknown"

/-- `adjust_windows(cur_state, args)`, as its observable effects:
the `adjwin.py` invocations made (each carrying the state name) and the
state-file writes performed, in order.  The invocation itself is modelled
as succeeding; a failing child process would propagate a
CalledProcessError, outside the modelled fragment. -/
def adjust_windows (cur_state : String) : List String × List String :=
  ((if cur_state = UNKNOWN_STATE then [] else [cur_state]), [cur_state])

/-- Observable outcome of one run of the `main` of `auto-win.py` (after the
monitors have been read): exit code, `adjwin.py` invocations, state-file
writes, and the state-file content after the run. -/
structure RunResult where
  exitCode : Nat
  adjwinCalls : List String
  stateWrites : List String
  finalState : Option String
deriving DecidableEq, Repr

/-- `main` of `auto-win.py` from the point where the config, the saved
state (`none` models a missing state file) and the connected-monitor list
are in hand, with `--monitors-only` off.  An uncaught Python exception is
modelled as `Except.error` (the process then exits non-zero). -/
def mainRun (conf : Conf) (saved : Option String) (mons : List (Option Monitor)) :
    Except PyErr RunResult :=
  match get_cur_state_name mons conf with
  | .error e => .error e
  | .ok curOpt =>
    let cur := curOpt.getD UNKNOWN_STATE
    if saved = some cur then
      .ok ⟨0, [], [], saved⟩
    else
      .ok ⟨0, (adjust_windows cur).1, (adjust_windows cur).2, some cur⟩

/-! ## adjwin.py: data model -/

/-- One placement rule of a layout profile (a `win` dict of the config:
keys `name`, `xoff`, `yoff`, `width`, `height`, `desk`). -/
structure Rule where
  name : String
  xoff : Int
  yoff : Int
  width : Int
  height : Int
  desk : Int
deriving DecidableEq, Repr

/-- The `ProcInfo` window record of `adjwin.py` after `_parse_input`. -/
structure ProcInfo where
  wid : String
  desktop : Int
  pid : Int
  xpos : Int
  ypos : Int
  width : Int
  height : Int
  name : String
  shell : Bool
deriving DecidableEq, Repr

/-! ## adjwin.py: window-profile matcher (`move_windows`) -/

/-- The inner `for i, pi in enumerate(procs)` scan of `move_windows`:
first window whose title contains the rule name as a substring, returned
together with the pool with that window deleted (`del procs[to_rem]`). -/
def findFirst (sub : String) : List ProcInfo → Option (ProcInfo × List ProcInfo)
  | [] => none
  | p :: ps =>
    if strIn sub p.name then some (p, ps)
    else
      match findFirst sub ps with
      | some (q, rest) => some (q, p :: rest)
      | none => none

/-- `move_windows(procs, conf, args)` for the selected profile `rules`:
returns the `(window, rule)` assignments in the order their placements
(`set_window`) are issued, together with the remaining unmatched pool.
A rule with no match is skipped. -/
def move_windows : List Rule → List ProcInfo → List (ProcInfo × Rule) × List ProcInfo
  | [], procs => ([], procs)
  | r :: rs, procs =>
    match findFirst r.name procs with
    | some (p, rest) =>
      ((p, r) :: (move_windows rs rest).1, (move_windows rs rest).2)
    | none => move_windows rs procs

/-- Python `dict` key lookup, on the association list modelling
`PROC_CACHE`. -/
def dictLookup (k : Int) : List (Int × List String) → Option (List String)
  | [] => none
  | (k2, v) :: rest => if k = k2 then some v else dictLookup k rest

/-- Python `dict` assignment `ret[k] = v` (overwrites an existing key). -/
def dictInsert (k : Int) (v : List String) :
    List (Int × List String) → List (Int × List String)
  | [] => [(k, v)]
  | (k2, v2) :: rest =>
    if k = k2 then (k, v) :: rest else (k2, v2) :: dictInsert k v rest

/-- The line loop of `_get_procs`: skip the `USER` header and blank
lines, `split(maxsplit=10)`, key the parts by `int(parts[1])`. -/
def get_procs_lines : List String → List (Int × List String) →
    Except PyErr (List (Int × List String))
  | [], acc => .ok acc
  | l :: ls, acc =>
    let line := pyStrip l.toList
    if isPrefixB "USER".toList line || line.isEmpty then get_procs_lines ls acc
    else
      let parts := pySplitMax 10 line
      match parts[1]? with
      | none => .error .indexError
      | some p1 =>
        match pyInt p1 with
        | none => .error .valueError
        | some pid => get_procs_lines ls (dictInsert pid (parts.map String.mk) acc)

/-- `_get_procs()`, abstracted over the `ps auxww` invocation: builds the
pid-keyed table from the output lines. -/
def get_procs (lines : List String) : Except PyErr (List (Int × List String)) :=
  get_procs_lines lines []

/-- `ProcInfo.is_shell` with the process table already built:
`PROC_CACHE[self.pid][10]` (raising `KeyError` on a missing pid and
`IndexError` on a short entry), then the gnome-terminal substring test
on that field. -/
def is_shell (table : List (Int × List String)) (pid : Int) : Except PyErr Bool :=
  match dictLookup pid table with
  | none => .error .keyError
  | some parts =>
    match parts[10]? with
    | none => .error .indexError
    | some cmd => .ok (isSubstrB "gnome-terminal".toList cmd.toList)

/-- `l[n]` returning the field as a string (`IndexError` when absent). -/
def strAt (i : List (List Char)) (n : Nat) : Except PyErr String :=
  match i[n]? with
  | none => .error .indexError
  | some t => .ok (String.mk t)

/-- `int(l[n])` (`IndexError` when absent, `ValueError` when not an int). -/
def intAt (i : List (List Char)) (n : Nat) : Except PyErr Int :=
  match i[n]? with
  | none => .error .indexError
  | some t =>
    match pyInt t with
    | none => .error .valueError
    | some v => .ok v

/-- Raw fields of one window line, before `is_shell` classification. -/
structure RawFields where
  wid : String
  desktop : Int
  pid : Int
  xpos : Int
  ypos : Int
  width : Int
  height : Int
  name : String
deriving DecidableEq, Repr

/-- The field-extraction part of `ProcInfo._parse_input(line)` (the line
is stripped by `__init__`): `i = line.split(maxsplit=8)`, fields at
indices 0..6 and 8 (index 7, the hostname, is unused). -/
def parseFields (line : List Char) : Except PyErr RawFields := do
  let i := pySplitMax 8 (pyStrip line)
  let wid ← strAt i 0
  let desktop ← intAt i 1
  let pid ← intAt i 2
  let xpos ← intAt i 3
  let ypos ← intAt i 4
  let width ← intAt i 5
  let height ← intAt i 6
  let name ← strAt i 8
  .ok ⟨wid, desktop, pid, xpos, ypos, width, height, name⟩

/-- All of `ProcInfo.__init__` / `_parse_input` for one window line,
with the process table in hand: parse the fields, then classify the
owning process (`self.shell = self.is_shell()`). -/
def parse_input (table : List (Int × List String)) (line : List Char) :
    Except PyErr ProcInfo := do
  let f ← parseFields line
  let sh ← is_shell table f.pid
  .ok ⟨f.wid, f.desktop, f.pid, f.xpos, f.ypos, f.width, f.height, f.name, sh⟩

/-- The window loop of `get_proc_info`, with the lazily-built global
`PROC_CACHE` threaded explicitly: the `ps` output is only parsed when the
first non-blank window line reaches `is_shell`.  Any raised error aborts
the whole inventory. -/
def inventoryAux (psLines : List String) :
    List String → Option (List (Int × List String)) → Except PyErr (List ProcInfo)
  | [], _ => .ok []
  | l :: ls, cache =>
    if (pyStrip l.toList).isEmpty then inventoryAux psLines ls cache
    else
      match parseFields l.toList with
      | .error e => .error e
      | .ok f =>
        match (match cache with
               | some t => Except.ok t
               | none => get_procs psLines) with
        | .error e => .error e
        | .ok t =>
          match is_shell t f.pid with
          | .error e => .error e
          | .ok sh =>
            match inventoryAux psLines ls (some t) with
            | .error e => .error e
            | .ok rest =>
              .ok (⟨f.wid, f.desktop, f.pid, f.xpos, f.ypos, f.width,
                    f.height, f.name, sh⟩ :: rest)

/-- `get_proc_info()`, abstracted over the two tool invocations:
`winLines` is the `wmctrl -l -G -p` output, `psLines` the `ps auxww`
output backing the lazily-built process table. -/
def get_proc_info (psLines winLines : List String) : Except PyErr (List ProcInfo) :=
  inventoryAux psLines winLines none

/-! ## adjwin.py: main -/

/-- Profile lookup in the loaded JSON config (`args.profile in conf` /
`conf[args.profile]`). -/
def lookupProf (conf : List (String × List Rule)) (profile : String) :
    Option (List Rule) :=
  match conf with
  | [] => none
  | (k, v) :: rest => if profile = k then some v else lookupProf rest profile

/-- The message of the `RuntimeError` raised for an unknown profile (the
key list rendering is abstracted to a comma-separated join). -/
def profileErrMsg (conf : List (String × List Rule)) : String :=
  "The profile must be one of: " ++ String.intercalate ", " (conf.map Prod.fst)

/-- `main` of `adjwin.py` from the point where the inventory and config
are in hand: raise (modelled as `Except.error`, the process then exits
non-zero with the message) when the profile is not a config key, else run
the matcher and return its assignments and remaining pool. -/
def adjwin_main (conf : List (String × List Rule)) (profile : String)
    (procs : List ProcInfo) :
    Except String (List (ProcInfo × Rule) × List ProcInfo) :=
  match lookupProf conf profile with
  | none => .error (profileErrMsg conf)
  | some prof => .ok (move_windows prof procs)

/-! ## Concrete test fixtures -/

/-- A built-in monitor configuration entry. -/
def biACME : BuiltIn := ⟨"ACME", "X1", "laptop"⟩

/-- A configuration with one named external monitor set. -/
def confACME : Conf := ⟨biACME, [("home", [⟨"DEL", "53441", "S1"⟩])]⟩

/-- The external monitor matching `confACME`s `"home"` entry. -/
def monDEL : Monitor := ⟨"DEL", "53441", "S1", false⟩

/-- An external monitor matching no configured entry. -/
def monZ : Monitor := ⟨"Z", "Z", "Z", false⟩

/-- A monitor with identity triple `(A, B, C)`. -/
def monABC : Monitor := ⟨"A", "B", "C", false⟩

/-- The configured triple `(A, B, C)`. -/
def dABC : MonDict := ⟨"A", "B", "C"⟩

/-- The configured triple `(X, Y, Z)`. -/
def dXYZ : MonDict := ⟨"X", "Y", "Z"⟩

/-- The configured triple `(Z, Z, Z)`. -/
def dZ : MonDict := ⟨"Z", "Z", "Z"⟩

/-- Placement rule naming the substring `Firefox`. -/
def ruleFirefox : Rule := ⟨"Firefox", 0, 0, 800, 600, 0⟩

/-- Placement rule naming the substring `fire`. -/
def ruleFire : Rule := ⟨"fire", 10, 10, 400, 300, 1⟩

/-- Placement rule matching no open window of the fixtures. -/
def ruleChrome : Rule := ⟨"Chromium", 0, 0, 1, 1, 0⟩

/-- Window titled `Mozilla Firefox`. -/
def winMoz : ProcInfo := ⟨"0x1", 0, 5, 0, 0, 1, 1, "Mozilla Firefox", false⟩

/-- Window titled `firefox - private`. -/
def winPriv : ProcInfo := ⟨"0x2", 0, 6, 0, 0, 1, 1, "firefox - private", false⟩

/-- `ps auxww` output: pid 5 with a full 11-field line, pid 7 with only
3 fields. -/
def psLines0 : List String :=
  ["u 5 a b c d e f g h gnome-terminal-server x", "u 7 x"]

/-- One well-formed `wmctrl -l -G -p` line owned by pid 5. -/
def winLine0 : String := "0x1 0 5 0 0 100 100 host MyTitle"

/-- The process table `_get_procs` builds from `psLines0`. -/
def table0 : List (Int × List String) :=
  [(5, ["u", "5", "a", "b", "c", "d", "e", "f", "g", "h",
        "gnome-terminal-server x"]),
   (7, ["u", "7", "x"])]

/-- The window record parsed from `winLine0` against `table0`. -/
def win0 : ProcInfo := ⟨"0x1", 0, 5, 0, 0, 100, 100, "MyTitle", true⟩

/-! ## Helper lemmas -/

theorem except_bind_ok {α β : Type} {e : Except PyErr α} {f : α → Except PyErr β}
    {b : β} (h : e >>= f = .ok b) : ∃ a, e = .ok a ∧ f a = .ok b := by
  cases e with
  | error err => simp [Bind.bind, Except.bind] at h
  | ok a => exact ⟨a, rfl, by simpa [Bind.bind, Except.bind] using h⟩

theorem findFirst_append_match (r : String) (pre post : List ProcInfo)
    (w : ProcInfo)
    (hpre : ∀ p ∈ pre, strIn r p.name = false)
    (hw : strIn r w.name = true) :
    findFirst r (pre ++ w :: post) = some (w, pre ++ post) := by
  induction pre with
  | nil => simp [findFirst, hw]
  | cons a as ih =>
    have ha : strIn r a.name = false := hpre a (by simp)
    have ih2 := ih (fun p hp => hpre p (by simp [hp]))
    simp [findFirst, ha, ih2]

theorem findFirst_none_of (r : String) (procs : List ProcInfo)
    (h : ∀ p ∈ procs, strIn r p.name = false) :
    findFirst r procs = none := by
  induction procs with
  | nil => rfl
  | cons a as ih =>
    simp [findFirst, h a (by simp), ih (fun p hp => h p (by simp [hp]))]

theorem findFirst_perm (r : String) :
    ∀ (procs : List ProcInfo) (p : ProcInfo) (rest : List ProcInfo),
      findFirst r procs = some (p, rest) → procs.Perm (p :: rest) := by
  intro procs
  induction procs with
  | nil => intro p rest h; simp [findFirst] at h
  | cons a as ih =>
    intro p rest h
    simp only [findFirst] at h
    split at h
    · simp only [Option.some.injEq, Prod.mk.injEq] at h
      obtain ⟨h1, h2⟩ := h
      subst h1; subst h2
      exact List.Perm.refl _
    · cases hf : findFirst r as with
      | none => rw [hf] at h; simp at h
      | some pr =>
        obtain ⟨q, rest2⟩ := pr
        rw [hf] at h
        simp only [Option.some.injEq, Prod.mk.injEq] at h
        obtain ⟨h1, h2⟩ := h
        subst h1; subst h2
        exact ((ih _ rest2 hf).cons a).trans (List.Perm.swap _ a rest2)

/-! ## Claim theorems -/

/-- Claim C4: the window-profile matcher is ordered, greedy, first-fit.
For the head rule, if the pool is `pre ++ w :: post` with nothing in
`pre` matching and `w` matching, then `w` is claimed (its placement is
issued first, before those of later rules), `w` is removed from the pool seen
by the remaining rules, and matching continues on `pre ++ post`; a rule
matching no remaining window is skipped without error. -/
theorem c4_first_fit_greedy :
    (∀ (r : Rule) (rs : List Rule) (pre post : List ProcInfo) (w : ProcInfo),
      (∀ p ∈ pre, strIn r.name p.name = false) →
      strIn r.name w.name = true →
      move_windows (r :: rs) (pre ++ w :: post) =
        ((w, r) :: (move_windows rs (pre ++ post)).1,
         (move_windows rs (pre ++ post)).2)) ∧
    (∀ (r : Rule) (rs : List Rule) (procs : List ProcInfo),
      (∀ p ∈ procs, strIn r.name p.name = false) →
      move_windows (r :: rs) procs = move_windows rs procs) := by
  constructor
  · intro r rs pre post w hpre hw
    simp [move_windows, findFirst_append_match r.name pre post w hpre hw]
  · intro r rs procs h
    simp [move_windows, findFirst_none_of r.name procs h]

/-- Witness for C4 at the example of the claim: rules `Firefox` then `fire`
on windows titled `Mozilla Firefox` then `firefox - private`; the first
rule claims the first window and the second rule claims the remaining
one; a rule matching nothing is skipped. -/
theorem c4_first_fit_greedy_witness :
    move_windows [ruleFirefox, ruleFire] [winMoz, winPriv] =
      ([(winMoz, ruleFirefox), (winPriv, ruleFire)], []) ∧
    move_windows [ruleChrome] [winMoz] = move_windows [] [winMoz] := by
  constructor
  · have h := c4_first_fit_greedy.1 ruleFirefox [ruleFire] [] [winPriv] winMoz
      (by simp) (by decide)
    simp only [List.nil_append] at h
    rw [h]
    decide
  · exact c4_first_fit_greedy.2 ruleChrome [] [winMoz] (by decide)

/-- Claim C6: the assignment relation of the matcher is an injective partial
matching: the windows claimed by the rules, together with the remaining
pool, are a permutation of the original inventory (so no window is
claimed by more than one rule), and the claiming rules form a sublist of
the rule list of the profile (so no rule claims more than one window). -/
theorem c6_injective_partial_matching (rules : List Rule) (procs : List ProcInfo) :
    ((move_windows rules procs).1.map Prod.fst ++
      (move_windows rules procs).2).Perm procs ∧
    List.Sublist ((move_windows rules procs).1.map Prod.snd) rules := by
  induction rules generalizing procs with
  | nil => simp [move_windows]
  | cons r rs ih =>
    cases hf : findFirst r.name procs with
    | none =>
      simp only [move_windows, hf]
      exact ⟨(ih procs).1, (ih procs).2.cons r⟩
    | some pr =>
      obtain ⟨p, rest⟩ := pr
      simp only [move_windows, hf, List.map_cons, List.cons_append]
      constructor
      · exact (((ih rest).1).cons p).trans (findFirst_perm r.name procs p rest hf).symm
      · exact ((ih rest).2).cons₂ r

/-- Claim C5: when the current set is exactly one monitor flagged
built-in, the classifier returns the configured built-in map name
immediately, for every configuration (whatever other entries exist). -/
theorem c5_builtin_short_circuit (m : Monitor) (conf : Conf)
    (h : m.built_in = true) :
    get_cur_state_name [some m] conf = .ok (some conf.builtIn.map) := by
  simp [get_cur_state_name, deref, h]

/-- Witness for C5: a configuration whose `"home"` entry also lists the
identity triple of the built-in still yields the built-in map name. -/
theorem c5_builtin_short_circuit_witness :
    get_cur_state_name [some ⟨"ACME", "X1", "", true⟩]
        ⟨biACME, [("home", [⟨"ACME", "X1", ""⟩])]⟩ = .ok (some "laptop") :=
  c5_builtin_short_circuit ⟨"ACME", "X1", "", true⟩
    ⟨biACME, [("home", [⟨"ACME", "X1", ""⟩])]⟩ rfl

/-- Claim C9: an unknown profile name makes `adjwin.py` fail with the
descriptive `RuntimeError` (a non-zero process exit) before any window
movement: the result is the error, carrying no placements. -/
theorem c9_unknown_profile_fatal (conf : List (String × List Rule))
    (profile : String) (procs : List ProcInfo)
    (h : lookupProf conf profile = none) :
    adjwin_main conf profile procs = .error (profileErrMsg conf) := by
  simp [adjwin_main, h]

/-- Witness for C9 at a concrete config and missing profile name. -/
theorem c9_unknown_profile_fatal_witness :
    adjwin_main [("home", [ruleFirefox])] "work" [winMoz] =
      .error (profileErrMsg [("home", [ruleFirefox])]) :=
  c9_unknown_profile_fatal [("home", [ruleFirefox])] "work" [winMoz] rfl

/-- Claim C1 (code bug evidence): a descriptor whose scan finds neither a
serial nor the built-in manufacturer+model yields `None`, which
`get_conn_monitors` nevertheless appends to the monitor list; the
classifier then raises `AttributeError` on `mons[0].built_in` instead of
treating the descriptor as absent, and the whole run aborts. -/
theorem c1_unidentified_descriptor_crash :
    get_mon_from_edid "hello" biACME = .ok none ∧
    get_conn_monitors ["hello"] biACME = .ok [none] ∧
    get_cur_state_name [none] confACME = .error .attributeError ∧
    get_cur_state_name [some monDEL, none] confACME = .error .attributeError ∧
    mainRun confACME (some "home") [none] = .error .attributeError := by
  refine ⟨rfl, rfl, rfl, rfl, rfl⟩

/-- Counterexample to Claim C2 as stated: a descriptor whose
serial-number line is its last line yields no record at all, and even
when trailing lines exist the record is not emitted immediately upon
finding the serial — a manufacturer line after the serial line still
changes the emitted record, which immediate emission would forbid. -/
theorem c2_counterexample :
    get_mon_from_edid "serial number: SN123" biACME = .ok none ∧
    get_mon_from_edid "serial number: SN123\nManufacturer: NEW\n" biACME =
      .ok (some ⟨"NEW", "", "SN123", false⟩) := ⟨rfl, rfl⟩

/-- Claim C2 (amended): after a serial has been accumulated, the scan
emits the record `(manufacturer, model, serial, built_in := false)` at
the first subsequent line matching none of the manufacturer / model /
serial patterns (such as the empty line a trailing newline produces);
a descriptor whose serial-number line is its very last line yields no
record. -/
theorem c2_serial_emission :
    (∀ (bi : BuiltIn) (rest : List (List Char)) (mfctr model serial : String)
        (line : List Char),
      serial ≠ "" →
      isMfrLine line = false → isModelLine line = false →
      searchSerial line = none →
      edidScan bi (line :: rest) mfctr model serial =
        .ok (some ⟨mfctr, model, serial, false⟩)) ∧
    (∀ (bi : BuiltIn) (line : List Char) (g : List Char)
        (mfctr model serial : String),
      isMfrLine line = false → isModelLine line = false →
      searchSerial line = some g →
      edidScan bi [line] mfctr model serial = .ok none) := by
  constructor
  · intro bi rest mfctr model serial line hs hm hmo hse
    simp [edidScan, hm, hmo, hse, hs]
  · intro bi line g mfctr model serial hm hmo hse
    simp [edidScan, hm, hmo, hse]

/-- Witness for C2 (amended): with accumulators `DEL`/`53441`/`SN123`,
the empty line produced by a trailing newline triggers emission, and a
lone serial line with nothing after it yields no record. -/
theorem c2_serial_emission_witness :
    edidScan biACME [[]] "DEL" "53441" "SN123" =
      .ok (some ⟨"DEL", "53441", "SN123", false⟩) ∧
    edidScan biACME ["Serial Number: SN123".toList] "" "" "" = .ok none := by
  constructor
  · exact c2_serial_emission.1 biACME [] "DEL" "53441" "SN123" []
      (by decide) rfl rfl rfl
  · exact c2_serial_emission.2 biACME "Serial Number: SN123".toList
      "SN123".toList "" "" "" rfl rfl rfl

/-- Claim C7: when the persisted state equals the state the classifier
computes (after the unknown mapping), the run makes no `adjwin.py` call
and no state-file write and exits 0; and any successful run followed by
a second run on the same monitors makes the second run a no-op. -/
theorem c7_idempotent_noop :
    (∀ (conf : Conf) (mons : List (Option Monitor)) (cur : Option String),
      get_cur_state_name mons conf = .ok cur →
      mainRun conf (some (cur.getD UNKNOWN_STATE)) mons =
        .ok ⟨0, [], [], some (cur.getD UNKNOWN_STATE)⟩) ∧
    (∀ (conf : Conf) (mons : List (Option Monitor)) (saved : Option String)
        (r1 : RunResult),
      mainRun conf saved mons = .ok r1 →
      mainRun conf r1.finalState mons = .ok ⟨0, [], [], r1.finalState⟩) := by
  constructor
  · intro conf mons cur h
    simp [mainRun, h]
  · intro conf mons saved r1 h
    cases hc : get_cur_state_name mons conf with
    | error e => simp [mainRun, hc] at h
    | ok curOpt =>
      simp only [mainRun, hc] at h ⊢
      split at h
      · rename_i hs
        simp only [Except.ok.injEq] at h
        subst h
        simp [hs]
      · simp only [Except.ok.injEq] at h
        subst h
        simp

/-- Witness for C7: persisted state `"home"` with the matching external
monitor attached is a no-op, and the run-then-rerun pair ends in a
no-op. -/
theorem c7_idempotent_noop_witness :
    mainRun confACME (some "home") [some monDEL] =
      .ok ⟨0, [], [], some "home"⟩ ∧
    mainRun confACME (RunResult.finalState ⟨0, ["home"], ["home"], some "home"⟩)
        [some monDEL] =
      .ok ⟨0, [], [], RunResult.finalState ⟨0, ["home"], ["home"], some "home"⟩⟩ := by
  constructor
  · have h := c7_idempotent_noop.1 confACME [some monDEL] (some "home") rfl
    simpa using h
  · exact c7_idempotent_noop.2 confACME [some monDEL] none
      ⟨0, ["home"], ["home"], some "home"⟩ rfl

/-- Claim C8: a monitor set matching no configured entry classifies to
`none`; the run maps it to the `"unknown"` sentinel, makes zero
`adjwin.py` placement calls, exits 0, leaves the state file holding
`"unknown"` (writing it unless it already said so), and a second run
with the unknown state persisted is a complete no-op. -/
theorem c8_unknown_state (conf : Conf) (mons : List (Option Monitor))
    (saved : Option String)
    (h : get_cur_state_name mons conf = .ok none) :
    mainRun conf saved mons =
      .ok ⟨0, [],
           (if saved = some UNKNOWN_STATE then [] else [UNKNOWN_STATE]),
           some UNKNOWN_STATE⟩ ∧
    mainRun conf (some UNKNOWN_STATE) mons =
      .ok ⟨0, [], [], some UNKNOWN_STATE⟩ := by
  constructor
  · simp only [mainRun, h, Option.getD_none]
    by_cases hs : saved = some UNKNOWN_STATE
    · simp [hs]
    · simp [hs, adjust_windows]
  · simp [mainRun, h, adjust_windows]

/-- Witness for C8: an unmatched external monitor with no state file
persists `"unknown"` with zero placement calls, and the second run is a
no-op. -/
theorem c8_unknown_state_witness :
    mainRun confACME none [some monZ] =
      .ok ⟨0, [], ["unknown"], some "unknown"⟩ ∧
    mainRun confACME (some "unknown") [some monZ] =
      .ok ⟨0, [], [], some "unknown"⟩ := by
  have h := c8_unknown_state confACME [some monZ] none rfl
  exact ⟨by simpa [UNKNOWN_STATE] using h.1, by simpa [UNKNOWN_STATE] using h.2⟩

theorem is_mon_match_iff (mons : List Monitor) (mlist : List MonDict) :
    is_mon_match mons mlist = true ↔
      (mons.length = mlist.length ∧ ∀ m ∈ mons, m.as_dict ∈ mlist) := by
  unfold is_mon_match
  rcases eq_or_ne mons.length mlist.length with h | h
  · simp [h, List.all_eq_true]
  · simp [h]

theorem is_mon_match_perm {mons mons2 : List Monitor} {mlist mlist2 : List MonDict}
    (h1 : mons.Perm mons2) (h2 : mlist.Perm mlist2) :
    is_mon_match mons mlist = is_mon_match mons2 mlist2 := by
  have e : is_mon_match mons mlist = true ↔ is_mon_match mons2 mlist2 = true := by
    rw [is_mon_match_iff, is_mon_match_iff, h1.length_eq, h2.length_eq]
    constructor
    · rintro ⟨hl, hm⟩
      exact ⟨hl, fun m hmem => (h2.mem_iff).mp (hm m ((h1.mem_iff).mpr hmem))⟩
    · rintro ⟨hl, hm⟩
      exact ⟨hl, fun m hmem => (h2.mem_iff).mpr (hm m ((h1.mem_iff).mp hmem))⟩
  cases hx : is_mon_match mons mlist <;> cases hy : is_mon_match mons2 mlist2 <;>
    simp_all

/-- Counterexample to Claim C3 as stated: with a duplicated current
monitor, `is_mon_match` accepts a configured list that is a strict
superset of the current identity-triple set, so the result is not set
equality of the two triple collections. -/
theorem c3_counterexample :
    is_mon_match [monABC, monABC] [dABC, dXYZ] = true ∧
    dXYZ ∈ [dABC, dXYZ] ∧
    dXYZ ∉ [monABC, monABC].map Monitor.as_dict := by decide

/-- Claim C3 (amended): `is_mon_match` holds iff the two lists have equal
length and the identity triple of every current monitor occurs in the
configured list.  Hence it is invariant under permutation of either list
and demands exact cardinality; and when both triple lists are
duplicate-free it coincides with set equality of the triples.  (With a
duplicated current triple, a configured list denoting a strict superset
can be accepted — see the counterexample.) -/
theorem c3_mon_match_characterisation :
    (∀ (mons : List Monitor) (mlist : List MonDict),
      is_mon_match mons mlist = true ↔
        (mons.length = mlist.length ∧ ∀ m ∈ mons, m.as_dict ∈ mlist)) ∧
    (∀ (mons mons2 : List Monitor) (mlist mlist2 : List MonDict),
      mons.Perm mons2 → mlist.Perm mlist2 →
      is_mon_match mons mlist = is_mon_match mons2 mlist2) ∧
    (∀ (mons : List Monitor) (mlist : List MonDict),
      mons.length ≠ mlist.length → is_mon_match mons mlist = false) ∧
    (∀ (mons : List Monitor) (mlist : List MonDict),
      (mons.map Monitor.as_dict).Nodup → mlist.Nodup →
      (is_mon_match mons mlist = true ↔
        (mons.map Monitor.as_dict).toFinset = mlist.toFinset)) := by
  refine ⟨is_mon_match_iff, fun _ _ _ _ => is_mon_match_perm, ?_, ?_⟩
  · intro mons mlist h
    unfold is_mon_match
    simp [h]
  · intro mons mlist hn1 hn2
    rw [is_mon_match_iff]
    constructor
    · rintro ⟨hlen, hmem⟩
      apply Finset.eq_of_subset_of_card_le
      · intro d hd
        rw [List.mem_toFinset] at hd ⊢
        obtain ⟨m, hm, rfl⟩ := List.mem_map.mp hd
        exact hmem m hm
      · rw [List.toFinset_card_of_nodup hn1, List.toFinset_card_of_nodup hn2,
            List.length_map]
        omega
    · intro heq
      refine ⟨?_, ?_⟩
      · have hcard := congrArg Finset.card heq
        rw [List.toFinset_card_of_nodup hn1, List.toFinset_card_of_nodup hn2,
            List.length_map] at hcard
        exact hcard
      · intro m hm
        have hmem : m.as_dict ∈ (mons.map Monitor.as_dict).toFinset := by
          rw [List.mem_toFinset]
          exact List.mem_map_of_mem _ hm
        rw [heq, List.mem_toFinset] at hmem
        exact hmem

/-- Witness for C3 (amended), instantiating every conjunct on concrete
monitor lists. -/
theorem c3_mon_match_characterisation_witness :
    (is_mon_match [monABC] [dABC] = true ↔
      ([monABC].length = [dABC].length ∧ ∀ m ∈ [monABC], m.as_dict ∈ [dABC])) ∧
    (is_mon_match [monABC, monZ] [dZ, dABC] =
      is_mon_match [monZ, monABC] [dABC, dZ]) ∧
    (is_mon_match [monABC] [dABC, dXYZ] = false) ∧
    (is_mon_match [monABC] [dABC] = true ↔
      ([monABC].map Monitor.as_dict).toFinset = [dABC].toFinset) :=
  ⟨c3_mon_match_characterisation.1 [monABC] [dABC],
   c3_mon_match_characterisation.2.1 [monABC, monZ] [monZ, monABC]
     [dZ, dABC] [dABC, dZ] (by decide) (by decide),
   c3_mon_match_characterisation.2.2.1 [monABC] [dABC, dXYZ] (by decide),
   c3_mon_match_characterisation.2.2.2 [monABC] [dABC] (by decide) (by decide)⟩

theorem countFields_dropWhile (s : List Char) :
    countFields true (s.dropWhile isWS) = countFields true s := by
  induction s with
  | nil => rfl
  | cons c cs ih =>
    by_cases h : isWS c = true
    · simp [List.dropWhile_cons, h, ih, countFields]
    · simp [List.dropWhile_cons, h]

theorem dropWhile_head_false (p : Char → Bool) :
    ∀ (l : List Char) (c : Char) (cs : List Char),
      l.dropWhile p = c :: cs → p c = false := by
  intro l
  induction l with
  | nil => intro c cs h; simp [List.dropWhile] at h
  | cons a as ih =>
    intro c cs h
    rw [List.dropWhile_cons] at h
    split at h
    · exact ih c cs h
    · rename_i hpa
      injection h with h1 h2
      subst h1
      simpa using hpa

theorem countFields_false_eq (cs : List Char) :
    countFields false cs = countFields true (cs.dropWhile (fun d => !isWS d)) := by
  induction cs with
  | nil => rfl
  | cons c cs ih =>
    by_cases h : isWS c = true
    · simp [countFields, h, List.dropWhile_cons]
    · simp [countFields, h, List.dropWhile_cons, ih]

theorem length_pySplitMax (n : Nat) (s : List Char) :
    (pySplitMax n s).length = min (n + 1) (fieldCount s) := by
  induction n generalizing s with
  | zero =>
    simp only [pySplitMax]
    cases h : s.dropWhile isWS with
    | nil =>
      have h0 : fieldCount s = 0 := by
        unfold fieldCount
        rw [← countFields_dropWhile s, h]
        rfl
      simp [h0]
    | cons c cs =>
      have hc : isWS c = false := dropWhile_head_false isWS s c cs h
      have h1 : fieldCount s = 1 + countFields false cs := by
        unfold fieldCount
        rw [← countFields_dropWhile s, h]
        simp [countFields, hc]
      simp [h1]
  | succ m ih =>
    simp only [pySplitMax]
    cases h : s.dropWhile isWS with
    | nil =>
      have h0 : fieldCount s = 0 := by
        unfold fieldCount
        rw [← countFields_dropWhile s, h]
        rfl
      simp [h0]
    | cons c cs =>
      have hc : isWS c = false := dropWhile_head_false isWS s c cs h
      have h1 : fieldCount s = 1 + countFields false cs := by
        unfold fieldCount
        rw [← countFields_dropWhile s, h]
        simp [countFields, hc]
      have h2 : countFields false cs =
          fieldCount ((c :: cs).dropWhile (fun d => !isWS d)) := by
        unfold fieldCount
        rw [List.dropWhile_cons]
        simp [hc, countFields_false_eq]
      simp only [List.length_cons, ih, h1, h2]
      omega

theorem inventoryAux_length :
    ∀ (winLines psLines : List String)
      (cache : Option (List (Int × List String))) (l : List ProcInfo),
      inventoryAux psLines winLines cache = .ok l →
      l.length =
        (winLines.filter (fun s => !(pyStrip s.toList).isEmpty)).length := by
  intro winLines
  induction winLines with
  | nil =>
    intro ps cache l h
    simp only [inventoryAux, Except.ok.injEq] at h
    subst h
    rfl
  | cons a ls ih =>
    intro ps cache l h
    simp only [inventoryAux] at h
    by_cases hb : (pyStrip a.toList).isEmpty = true
    · rw [if_pos hb] at h
      have hlen := ih ps cache l h
      have hb2 : pyStrip a.data = [] := by simpa using hb
      simp [List.filter_cons, hlen, hb2]
    · rw [if_neg hb] at h
      cases hp : parseFields a.toList with
      | error e => simp only [hp] at h; exact Except.noConfusion h
      | ok f =>
        simp only [hp] at h
        cases ht : (match cache with
                    | some t => Except.ok t
                    | none => get_procs ps) with
        | error e => simp only [ht] at h; exact Except.noConfusion h
        | ok t =>
          simp only [ht] at h
          cases hs : is_shell t f.pid with
          | error e => simp only [hs] at h; exact Except.noConfusion h
          | ok sh =>
            simp only [hs] at h
            cases hr : inventoryAux ps ls (some t) with
            | error e => simp only [hr] at h; exact Except.noConfusion h
            | ok rest =>
              simp only [hr, Except.ok.injEq] at h
              subst h
              have hlen := ih ps (some t) rest hr
              have hb2 : pyStrip a.data ≠ [] := by simpa using hb
              simp [List.filter_cons, hlen, hb2]

/-- Counterexample to Claim C10 as stated: the inventory builds
successfully although one process-list line (`u 7 x`, for pid 7) has only
3 whitespace-separated fields — only the line of the looked-up pid (pid 5,
11 fields here) needs the 11 fields, so "each line of the process-list
query must have at least 11 fields" is not a necessary condition. -/
theorem c10_counterexample :
    get_proc_info psLines0 [winLine0] = .ok [win0] ∧
    fieldCount "u 7 x".toList = 3 := ⟨rfl, rfl⟩

/-- Claim C10 (amended): building a window record succeeds only if the
window line has at least 9 whitespace-separated fields and its owning
pid is a key of the process table whose stored entry (the parts of that
own process line of that pid) has at least 11 fields; and the inventory never
skips a non-blank window line — on success every non-blank line yielded
a record, and any violating line turns the whole inventory into an
error. -/
theorem c10_inventory_necessity :
    (∀ (table : List (Int × List String)) (line : List Char) (w : ProcInfo),
      parse_input table line = .ok w →
      9 ≤ fieldCount (pyStrip line) ∧
      ∃ parts, dictLookup w.pid table = some parts ∧ 11 ≤ parts.length) ∧
    (∀ (psLines winLines : List String) (l : List ProcInfo),
      get_proc_info psLines winLines = .ok l →
      l.length =
        (winLines.filter (fun s => !(pyStrip s.toList).isEmpty)).length) := by
  constructor
  · intro table line w h
    simp only [parse_input] at h
    obtain ⟨f, hf, h⟩ := except_bind_ok h
    obtain ⟨sh, hsh, h⟩ := except_bind_ok h
    simp only [Except.ok.injEq] at h
    subst h
    constructor
    · simp only [parseFields] at hf
      obtain ⟨a0, h0, hf⟩ := except_bind_ok hf
      obtain ⟨a1, h1, hf⟩ := except_bind_ok hf
      obtain ⟨a2, h2, hf⟩ := except_bind_ok hf
      obtain ⟨a3, h3, hf⟩ := except_bind_ok hf
      obtain ⟨a4, h4, hf⟩ := except_bind_ok hf
      obtain ⟨a5, h5, hf⟩ := except_bind_ok hf
      obtain ⟨a6, h6, hf⟩ := except_bind_ok hf
      obtain ⟨a8, h8, hf⟩ := except_bind_ok hf
      unfold strAt at h8
      cases hg : (pySplitMax 8 (pyStrip line))[8]? with
      | none => simp only [hg] at h8; exact Except.noConfusion h8
      | some t =>
        have hlt := (List.getElem?_eq_some.mp hg).1
        have hmin := length_pySplitMax 8 (pyStrip line)
        omega
    · unfold is_shell at hsh
      cases hd : dictLookup f.pid table with
      | none => simp only [hd] at hsh; exact Except.noConfusion hsh
      | some parts =>
        simp only [hd] at hsh
        cases hg : parts[10]? with
        | none => simp only [hg] at hsh; exact Except.noConfusion hsh
        | some cmd =>
          have hlt := (List.getElem?_eq_some.mp hg).1
          exact ⟨parts, rfl, by omega⟩
  · intro psLines winLines l h
    exact inventoryAux_length winLines psLines none l h

/-- Witness for C10 (amended): the successful concrete inventory build
satisfies the necessary conditions (9 window-line fields, pid 5 present
with an 11-field entry), and its record count equals its non-blank
window-line count. -/
theorem c10_inventory_necessity_witness :
    (9 ≤ fieldCount (pyStrip winLine0.toList) ∧
      ∃ parts, dictLookup win0.pid table0 = some parts ∧ 11 ≤ parts.length) ∧
    ([win0] : List ProcInfo).length =
      ([winLine0].filter (fun s => !(pyStrip s.toList).isEmpty)).length :=
  ⟨c10_inventory_necessity.1 table0 winLine0.toList win0 rfl,
   c10_inventory_necessity.2 psLines0 [winLine0] [win0] rfl⟩
